import Mathlib

/-!
Shallow embedding of the service worker `src/static/sw.js` of the
AI Recipe Bot PWA (the "Resilience Agent" of the specification).

The worker is purely reactive: each browser-delivered event (install,
activate, fetch, sync, push, notificationclick) is embedded as a pure
function from the pre-state (the Cache Storage content, a network oracle)
to the post-state plus the observable outcome.  The network oracle
`net : Request → Option Response` returns `none` for a transport-level
failure (the JS `fetch` promise rejects) and `some resp` when the fetch
resolves, whatever the HTTP status.
-/

namespace RecipeSW

/-- Boolean prefix test on character lists, used to embed the JS string
predicates `startsWith` and `includes`. -/
def listPrefix : List Char → List Char → Bool
  | [], _ => true
  | _ :: _, [] => false
  | a :: as, b :: bs => a == b && listPrefix as bs

/-- JS `s.startsWith(pre)`. -/
def jsStartsWith (s pre : String) : Bool := listPrefix pre.toList s.toList

/-- Boolean infix test on character lists. -/
def listInfix (sub : List Char) : List Char → Bool
  | [] => listPrefix sub []
  | b :: bs => listPrefix sub (b :: bs) || listInfix sub bs

/-- JS `s.includes(sub)`: `sub` occurs as a substring of `s`. -/
def jsIncludes (s sub : String) : Bool := listInfix sub.toList s.toList

/-- A parsed URL: `origin` and the rest (`pathname`, and query if any),
as the JS code reads `url.origin` and `url.pathname` from `new URL(...)`. -/
structure Url where
  origin : String
  pathname : String
deriving DecidableEq, Repr

/-- The full URL string (`request.url` in JS). -/
def Url.href (u : Url) : String := u.origin ++ u.pathname

/-- The slice of a platform `Request` the worker inspects: method, URL and
the `Accept` header (`none` when the header is absent, i.e. JS `null`). -/
structure Request where
  method : String
  url : Url
  accept : Option String
deriving DecidableEq, Repr

/-- The slice of a platform `Response` the worker inspects: status code,
`Content-Type` header (`none` when absent) and body. -/
structure Response where
  status : Nat
  contentType : Option String
  body : String
deriving DecidableEq, Repr

/-- JS `Response.ok`: status in the inclusive range 200–299. -/
def Response.ok (r : Response) : Bool := 200 ≤ r.status && r.status ≤ 299

/-- One cache (partition) of the Cache Storage: an association list from
stored requests to captured responses.  The Cache API matches entries by
URL, so all operations key on `Url.href`. -/
abbrev Cache := List (Request × Response)

/-- The whole Cache Storage: named caches in creation order. -/
abbrev CacheStorage := List (String × Cache)

/-- `cache.match(href)`: first stored response whose request URL equals
`href`. -/
def cacheLookup (c : Cache) (href : String) : Option Response :=
  match c with
  | [] => none
  | e :: rest => if e.1.url.href == href then some e.2 else cacheLookup rest href

/-- `cache.put(req, resp)`: last-write-wins overwrite of the entry keyed by
`req`'s URL. -/
def cachePut (c : Cache) (req : Request) (resp : Response) : Cache :=
  c.filter (fun e => e.1.url.href != req.url.href) ++ [(req, resp)]

/-- `cache.delete(req)`: drop the entry keyed by `req`'s URL. -/
def cacheDelete (c : Cache) (req : Request) : Cache :=
  c.filter (fun e => e.1.url.href != req.url.href)

/-- `caches.open(name)`: create the named cache (empty) if absent. -/
def cachesOpen (st : CacheStorage) (name : String) : CacheStorage :=
  if st.any (fun p => p.1 == name) then st else st ++ [(name, [])]

/-- The content of the named cache (empty if the cache does not exist). -/
def storeGetCache (st : CacheStorage) (name : String) : Cache :=
  match st with
  | [] => []
  | p :: rest => if p.1 == name then p.2 else storeGetCache rest name

/-- Replace the content of the named cache (no-op if absent). -/
def storeSetCache (st : CacheStorage) (name : String) (c : Cache) : CacheStorage :=
  st.map (fun p => if p.1 == name then (p.1, c) else p)

/-- `caches.open(name)` followed by `cache.put(req, resp)`. -/
def storePut (st : CacheStorage) (name : String) (req : Request) (resp : Response) :
    CacheStorage :=
  let st1 := cachesOpen st name
  storeSetCache st1 name (cachePut (storeGetCache st1 name) req resp)

/-- `caches.match(href)`: search every cache in creation order, returning
the first match. -/
def cachesMatch (st : CacheStorage) (href : String) : Option Response :=
  match st with
  | [] => none
  | p :: rest =>
    match cacheLookup p.2 href with
    | some r => some r
    | none => cachesMatch rest href

/-- All entries of the store, flattened with their cache name. -/
def storeEntries (st : CacheStorage) : List (String × Request × Response) :=
  match st with
  | [] => []
  | p :: rest => p.2.map (fun e => (p.1, e.1, e.2)) ++ storeEntries rest

/-! ### Constants of sw.js -/

def CACHE_NAME : String := "ai-recipe-bot-v1.0.0"

def STATIC_CACHE : String := "ai-recipe-bot-static-v1.0.0"

def DYNAMIC_CACHE : String := "ai-recipe-bot-dynamic-v1.0.0"

/-- The `STATIC_ASSETS` list of sw.js.  Relative URLs (`'/'`,
`'/static/manifest.json'`) resolve against the worker's own origin
`selfOrigin`; the rest are absolute cross-origin URLs. -/
def STATIC_ASSETS (selfOrigin : String) : List Url :=
  [ ⟨selfOrigin, "/"⟩,
    ⟨selfOrigin, "/static/manifest.json"⟩,
    ⟨"https://fonts.googleapis.com", "/css2?family=Inter:wght@400;500;600;700&display=swap"⟩,
    ⟨"https://cdn.jsdelivr.net", "/npm/bootstrap@5.3.0/dist/css/bootstrap.min.css"⟩,
    ⟨"https://cdn.jsdelivr.net", "/npm/bootstrap-icons@1.10.0/font/bootstrap-icons.css"⟩,
    ⟨"https://unpkg.com", "/htmx.org@1.9.6/dist/htmx.min.js"⟩,
    ⟨"https://cdn.jsdelivr.net", "/npm/bootstrap@5.3.0/dist/js/bootstrap.bundle.min.js"⟩ ]

/-- The GET request `cache.addAll` issues for an asset URL. -/
def assetReq (u : Url) : Request := { method := "GET", url := u, accept := none }

/-! ### Install (sw.js lines 18–28) -/

/-- `cache.addAll(assets)`: fetch every asset and store all of them as one
atomic batch.  The Cache API rejects the whole batch — leaving the cache
unchanged — if any fetch rejects or any response is not `ok`. -/
def addAll (net : Request → Option Response) (c : Cache) : List Url → Option Cache
  | [] => some c
  | u :: us =>
    match net (assetReq u) with
    | some resp => if resp.ok then addAll net (cachePut c (assetReq u) resp) us else none
    | none => none

structure InstallResult where
  store : CacheStorage
  skipWaiting : Bool
  succeeded : Bool
deriving DecidableEq, Repr

/-- The install listener: `caches.open(STATIC_CACHE)` (which creates the —
possibly empty — partition), then `cache.addAll(STATIC_ASSETS)`, then
`self.skipWaiting()`.  If `addAll` rejects, the `waitUntil` promise rejects:
the install fails, `skipWaiting` is never called, and no version switch
happens. -/
def onInstall (selfOrigin : String) (st : CacheStorage)
    (net : Request → Option Response) : InstallResult :=
  let st1 := cachesOpen st STATIC_CACHE
  match addAll net (storeGetCache st1 STATIC_CACHE) (STATIC_ASSETS selfOrigin) with
  | some c => { store := storeSetCache st1 STATIC_CACHE c, skipWaiting := true, succeeded := true }
  | none => { store := st1, skipWaiting := false, succeeded := false }

/-! ### Activate (sw.js lines 31–45) -/

structure ActivateResult where
  store : CacheStorage
  clientsClaimed : Bool
deriving DecidableEq, Repr

/-- The activate listener: delete every cache whose name is neither
`STATIC_CACHE` nor `DYNAMIC_CACHE`, then `self.clients.claim()`. -/
def onActivate (st : CacheStorage) : ActivateResult :=
  { store := st.filter (fun p => p.1 == STATIC_CACHE || p.1 == DYNAMIC_CACHE),
    clientsClaimed := true }

/-! ### Fetch (sw.js lines 48–118) -/

inductive FetchOutcome
  /-- The listener returned without calling `respondWith`: the browser
  performs its default network handling, untouched by the worker. -/
  | passthrough
  /-- `respondWith` resolved with this response. -/
  | response (r : Response)
  /-- `respondWith`'s promise resolved with `undefined` or rejected: the
  browser turns the request into a network error. -/
  | networkError
deriving DecidableEq, Repr

structure FetchResult where
  outcome : FetchOutcome
  store : CacheStorage
  /-- Number of `fetch` calls the worker itself issued while handling the
  request. -/
  netCalls : Nat
deriving DecidableEq, Repr

/-- `url.pathname.startsWith('/api/') || ... ('/health') || ... ('/status')`. -/
def isApiPath (path : String) : Bool :=
  jsStartsWith path "/api/" || jsStartsWith path "/health" || jsStartsWith path "/status"

/-- The content-type test of the cache-first branch:
`response.headers.get('content-type')?.includes(...)` for `text/html`,
`text/css`, `application/javascript`; an absent header (JS `null` with
optional chaining) is falsy. -/
def ctCacheable (resp : Response) : Bool :=
  match resp.contentType with
  | some ct =>
    jsIncludes ct "text/html" || jsIncludes ct "text/css" ||
      jsIncludes ct "application/javascript"
  | none => false

/-- URL of `caches.match('/offline.html')`, resolved against the worker's
origin. -/
def offlineHref (selfOrigin : String) : String := selfOrigin ++ "/offline.html"

/-- The fetch listener.  Notes on the faithful embedding of two JS subtleties:

* the origin guard is `!url.origin.includes(self.location.origin)` — a
  substring test, not an equality test;
* in the cache-first catch branch, the JS is
  `return caches.match('/offline.html') || new Response('<h1>Offline</h1>…')`.
  `caches.match` returns a promise, and a promise object is always truthy,
  so `||` short-circuits to the promise and the inline `new Response(...)`
  is unreachable.  When `/offline.html` is not cached the promise resolves
  to `undefined` and `respondWith` produces a network error.  Likewise
  `request.headers.get('accept')` is `null` when the header is absent, so
  `.includes` throws, the catch handler's promise rejects, and
  `respondWith` again produces a network error. -/
def handleFetch (selfOrigin : String) (st : CacheStorage)
    (net : Request → Option Response) (req : Request) : FetchResult :=
  if req.method != "GET" || !(jsIncludes req.url.origin selfOrigin) then
    { outcome := .passthrough, store := st, netCalls := 0 }
  else if isApiPath req.url.pathname then
    -- network-first
    match net req with
    | some resp =>
      { outcome := .response resp,
        store := if resp.ok then storePut st DYNAMIC_CACHE req resp else st,
        netCalls := 1 }
    | none =>
      match cachesMatch st req.url.href with
      | some r => { outcome := .response r, store := st, netCalls := 1 }
      | none => { outcome := .networkError, store := st, netCalls := 1 }
  else
    -- cache-first
    match cachesMatch st req.url.href with
    | some r => { outcome := .response r, store := st, netCalls := 0 }
    | none =>
      match net req with
      | some resp =>
        if !resp.ok then { outcome := .response resp, store := st, netCalls := 1 }
        else if ctCacheable resp then
          { outcome := .response resp, store := storePut st DYNAMIC_CACHE req resp,
            netCalls := 1 }
        else { outcome := .response resp, store := st, netCalls := 1 }
      | none =>
        match req.accept with
        | some a =>
          if jsIncludes a "text/html" then
            match cachesMatch st (offlineHref selfOrigin) with
            | some r => { outcome := .response r, store := st, netCalls := 1 }
            | none => { outcome := .networkError, store := st, netCalls := 1 }
          else { outcome := .networkError, store := st, netCalls := 1 }
        | none => { outcome := .networkError, store := st, netCalls := 1 }

/-! ### Background sync (sw.js lines 121–150) -/

/-- The filter of `syncPendingRecipes`:
`request.url.includes('/recipes/create') && request.method === 'POST'`. -/
def isPendingRecipe (r : Request) : Bool :=
  jsIncludes r.url.href "/recipes/create" && r.method == "POST"

/-- The pending list: `cache.keys()` filtered by `isPendingRecipe`. -/
def pendingOf (c : Cache) : List Request :=
  (c.map Prod.fst).filter isPendingRecipe

/-- The retry loop of `syncPendingRecipes` (lines 139–146): for each pending
request, `await fetch(request)`; if the fetch resolves — whatever the HTTP
status — `await cache.delete(request)`; if it rejects, the catch logs and
the entry stays. -/
def replayLoop (net : Request → Option Response) : Cache → List Request → Cache
  | c, [] => c
  | c, r :: rs =>
    match net r with
    | some _ => replayLoop net (cacheDelete c r) rs
    | none => replayLoop net c rs

/-- `syncPendingRecipes()`: open the dynamic cache, compute the pending
list from its keys, run the retry loop.  Returns the new store and the
number of replay fetches issued (one per pending request). -/
def syncPendingRecipes (st : CacheStorage) (net : Request → Option Response) :
    CacheStorage × Nat :=
  let st1 := cachesOpen st DYNAMIC_CACHE
  let c := storeGetCache st1 DYNAMIC_CACHE
  let pending := pendingOf c
  (storeSetCache st1 DYNAMIC_CACHE (replayLoop net c pending), pending.length)

/-- The sync listener: only the tag `'background-recipe-sync'` triggers
`syncPendingRecipes`; any other tag is ignored. -/
def handleSync (tag : String) (st : CacheStorage) (net : Request → Option Response) :
    CacheStorage × Nat :=
  if tag == "background-recipe-sync" then syncPendingRecipes st net else (st, 0)

/-! ### Push and notification click (sw.js lines 153–193) -/

/-- The fields of the push payload the worker (or the spec's schema) reads:
`title`, `body`, and `data.url`. -/
structure PushPayload where
  title : Option String
  body : Option String
  dataUrl : Option String
deriving DecidableEq, Repr

/-- `event.data` when present: either text that `event.data.json()` fails to
parse (it throws a `SyntaxError`), or a parsed payload. -/
inductive PushMessage
  | malformed (raw : String)
  | parsed (p : PushPayload)
deriving DecidableEq, Repr

/-- The `data` option the push handler attaches to the notification.  The
code hardcodes `{ dateOfArrival: Date.now(), primaryKey: 1 }`; no `url`
field is ever set. -/
structure NotifData where
  dateOfArrival : Nat
  primaryKey : Nat
  url : Option String
deriving DecidableEq, Repr

structure Notification where
  title : String
  body : Option String
  icon : String
  badge : String
  vibrate : List Nat
  data : NotifData
  actions : List String
deriving DecidableEq, Repr

inductive PushOutcome
  /-- Handler returned without displaying anything and without error. -/
  | noAction
  /-- `showNotification` displayed exactly this notification. -/
  | shown (n : Notification)
  /-- An error propagated out of the handler (`event.data.json()` threw). -/
  | threw
deriving DecidableEq, Repr

/-- WebIDL coercion of the `showNotification` title argument: JS `undefined`
becomes the string `"undefined"`. -/
def jsTitleString : Option String → String
  | some t => t
  | none => "undefined"

/-- The push listener.  `now` is the value of `Date.now()` at handling
time.  Note that the payload's `data` blob (in particular `data.url`) is
NOT copied into the notification: `options.data` is hardcoded. -/
def handlePush (now : Nat) (ev : Option PushMessage) : PushOutcome :=
  match ev with
  | none => .noAction
  | some (.malformed _) => .threw
  | some (.parsed p) =>
    .shown
      { title := jsTitleString p.title,
        body := p.body,
        icon := "/static/icons/icon-192x192.png",
        badge := "/static/icons/icon-72x72.png",
        vibrate := [100, 50, 100],
        data := { dateOfArrival := now, primaryKey := 1, url := none },
        actions := ["view", "dismiss"] }

/-- Number of notifications a push outcome displayed. -/
def displayedCount : PushOutcome → Nat
  | .shown _ => 1
  | _ => 0

/-- Whether an error propagated out of the push handler. -/
def threwError : PushOutcome → Bool
  | .threw => true
  | _ => false

structure ClickResult where
  closed : Bool
  openedUrl : Option String
deriving DecidableEq, Repr

/-- The notificationclick listener: always `event.notification.close()`;
only when `event.action === 'view'` does it
`clients.openWindow(event.notification.data.url || '/')`.  A plain click
(empty action string) or the `'dismiss'` action performs no navigation. -/
def handleNotificationClick (n : Notification) (action : String) : ClickResult :=
  { closed := true,
    openedUrl := if action == "view" then some (n.data.url.getD "/") else none }

/-! ### Derived predicates -/

/-- An asset fetch fails for `addAll` when the fetch rejects or the
response is not `ok`. -/
def fetchFails (net : Request → Option Response) (u : Url) : Bool :=
  match net (assetReq u) with
  | some r => !r.ok
  | none => true

/-- The URL keys of a cache's entries. -/
def cacheHrefs (c : Cache) : List String :=
  (c.map Prod.fst).map (fun r => r.url.href)

/-- Well-formedness of a cache: entry keys are pairwise distinct — the
Cache API invariant (`cache.put` overwrites the entry with the same URL). -/
def cacheWf (c : Cache) : Prop := (cacheHrefs c).Nodup

/-! ### Concrete instances used in closed theorems and witnesses -/

def demoOrigin : String := "https://app.example"

/-- A network oracle for a fully unreachable network: every fetch rejects. -/
def netDown : Request → Option Response := fun _ => none

def okResp : Response := { status := 200, contentType := some "text/html", body := "ok" }

/-- A network oracle for a healthy network: every fetch resolves `ok`. -/
def netUp : Request → Option Response := fun _ => some okResp

/-- A mutating creation request: POST to the recipe-creation endpoint. -/
def createPostReq : Request :=
  { method := "POST", url := { origin := demoOrigin, pathname := "/recipes/create" },
    accept := some "text/html" }

/-- A same-origin page navigation request. -/
def pageReq : Request :=
  { method := "GET", url := { origin := demoOrigin, pathname := "/recipes" },
    accept := some "text/html,application/xhtml+xml" }

/-- A GET request to a foreign origin whose serialization strictly contains
the agent's origin `demoOrigin` as a substring. -/
def evilReq : Request :=
  { method := "GET",
    url := { origin := "https://app.example.evil.test", pathname := "/api/steal" },
    accept := none }

def statusReq : Request :=
  { method := "GET", url := { origin := demoOrigin, pathname := "/api/status" },
    accept := none }

def cachedResp : Response :=
  { status := 200, contentType := some "application/json", body := "status-ok" }

/-- A store holding a runtime-partition copy for `/api/status`. -/
def stWithStatus : CacheStorage := [(DYNAMIC_CACHE, [(statusReq, cachedResp)])]

def resp404 : Response := { status := 404, contentType := some "text/html", body := "not found" }

def badReq : Request :=
  { method := "GET", url := { origin := demoOrigin, pathname := "/api/bad" }, accept := none }

/-- The push payload of the spec's rendering scenario. -/
def readyPayload : PushPayload :=
  { title := some "Ready", body := some "Your recipe is ready", dataUrl := some "/recipes/42" }

/-- The notification the push handler actually builds for `readyPayload`
at `now = 0`: note `data.url = none` — the payload's URL is dropped. -/
def readyNotif : Notification :=
  { title := "Ready",
    body := some "Your recipe is ready",
    icon := "/static/icons/icon-192x192.png",
    badge := "/static/icons/icon-72x72.png",
    vibrate := [100, 50, 100],
    data := { dateOfArrival := 0, primaryKey := 1, url := none },
    actions := ["view", "dismiss"] }

/-- A queued replay item (hypothetical: placed in the runtime cache by the
test state, since the worker itself never writes one). -/
def queuedPost : Request :=
  { method := "POST", url := { origin := demoOrigin, pathname := "/recipes/create" },
    accept := none }

def queuedResp : Response := { status := 200, contentType := none, body := "queued" }

def resp500 : Response := { status := 500, contentType := none, body := "server error" }

/-! ### Helper lemmas -/

theorem listPrefix_refl (l : List Char) : listPrefix l l = true := by
  induction l with
  | nil => rfl
  | cons a as ih => simp [listPrefix, ih]

theorem listInfix_self (l : List Char) : listInfix l l = true := by
  cases l with
  | nil => rfl
  | cons a as => simp [listInfix, listPrefix_refl]

/-- A string always contains itself, so the origin guard passes for a
same-origin request. -/
theorem jsIncludes_refl (s : String) : jsIncludes s s = true :=
  listInfix_self s.toList

theorem storeEntries_append (a b : CacheStorage) :
    storeEntries (a ++ b) = storeEntries a ++ storeEntries b := by
  induction a with
  | nil => rfl
  | cons p rest ih => simp [storeEntries, ih]

/-- `caches.open` never changes the entries of the store. -/
theorem storeEntries_cachesOpen (st : CacheStorage) (name : String) :
    storeEntries (cachesOpen st name) = storeEntries st := by
  unfold cachesOpen
  split
  · rfl
  · rw [storeEntries_append]; simp [storeEntries]

/-- If some listed asset's fetch fails, the atomic `addAll` batch rejects. -/
theorem addAll_eq_none (net : Request → Option Response) (us : List Url)
    (hu : ∃ u ∈ us, fetchFails net u = true) :
    ∀ c : Cache, addAll net c us = none := by
  induction us with
  | nil => rcases hu with ⟨u, hm, _⟩; cases hm
  | cons v vs ih =>
    intro c
    rcases hu with ⟨u, hm, hf⟩
    rcases List.mem_cons.mp hm with h | h
    · subst h
      unfold fetchFails at hf
      unfold addAll
      cases hnet : net (assetReq u) with
      | none => rfl
      | some r =>
        rw [hnet] at hf
        simp only [Bool.not_eq_true'] at hf
        simp [hf]
    · unfold addAll
      cases hnet : net (assetReq v) with
      | none => rfl
      | some r =>
        by_cases hok : r.ok
        · simp [hok]; exact ih ⟨u, h, hf⟩ _
        · simp [hok]

/-- Deleting an entry with a different key does not change a lookup. -/
theorem cacheLookup_delete_ne (c : Cache) (r : Request) (h : String)
    (hne : r.url.href ≠ h) :
    cacheLookup (cacheDelete c r) h = cacheLookup c h := by
  induction c with
  | nil => rfl
  | cons e rest ih =>
    by_cases he : e.1.url.href = r.url.href
    · have heh : e.1.url.href ≠ h := by rw [he]; exact hne
      have hd : (e.1.url.href != r.url.href) = false := by simp [he]
      have hl : (e.1.url.href == h) = false := by simp [heh]
      unfold cacheDelete at ih ⊢
      rw [List.filter_cons]
      simp only [hd, Bool.false_eq_true, if_false, cacheLookup, hl]
      exact ih
    · have hd : (e.1.url.href != r.url.href) = true := by simp [he]
      unfold cacheDelete at ih ⊢
      rw [List.filter_cons]
      simp only [hd, if_true]
      unfold cacheLookup
      by_cases hl : e.1.url.href = h
      · simp [hl]
      · simp only [show (e.1.url.href == h) = false by simp [hl], Bool.false_eq_true,
          if_false]
        exact ih

/-- Deleting an entry kills the lookup of its own key. -/
theorem cacheLookup_delete_self (c : Cache) (r : Request) :
    cacheLookup (cacheDelete c r) r.url.href = none := by
  induction c with
  | nil => rfl
  | cons e rest ih =>
    unfold cacheDelete at *
    by_cases he : e.1.url.href = r.url.href
    · simp [List.filter_cons, he, ih]
    · have : (e.1.url.href != r.url.href) = true := by simp [he]
      have hne : (e.1.url.href == r.url.href) = false := by simp [he]
      simp [List.filter_cons, this, cacheLookup, hne, ih]

/-- A missing key stays missing after a delete. -/
theorem cacheLookup_delete_none (c : Cache) (r : Request) (h : String)
    (hnone : cacheLookup c h = none) :
    cacheLookup (cacheDelete c r) h = none := by
  by_cases he : r.url.href = h
  · subst he; exact cacheLookup_delete_self c r
  · rw [cacheLookup_delete_ne c r h he]; exact hnone

/-- The retry loop only deletes: a missing key stays missing. -/
theorem replayLoop_none_preserved (net : Request → Option Response)
    (l : List Request) :
    ∀ c : Cache, ∀ h : String, cacheLookup c h = none →
      cacheLookup (replayLoop net c l) h = none := by
  induction l with
  | nil => intro c h hc; exact hc
  | cons r rs ih =>
    intro c h hc
    unfold replayLoop
    cases hnet : net r with
    | some resp => exact ih _ _ (cacheLookup_delete_none c r h hc)
    | none => exact ih _ _ hc

/-- If no request in the processed list has key `h`, the loop leaves the
entry at `h` untouched. -/
theorem replayLoop_untouched (net : Request → Option Response)
    (l : List Request) :
    ∀ c : Cache, ∀ h : String, (∀ r ∈ l, r.url.href ≠ h) →
      cacheLookup (replayLoop net c l) h = cacheLookup c h := by
  induction l with
  | nil => intro c h _; rfl
  | cons r rs ih =>
    intro c h hl
    unfold replayLoop
    cases hnet : net r with
    | some resp =>
      rw [ih _ _ (fun r' hr' => hl r' (List.mem_cons_of_mem r hr'))]
      exact cacheLookup_delete_ne c r h (hl r (List.mem_cons_self r rs))
    | none => exact ih _ _ (fun r' hr' => hl r' (List.mem_cons_of_mem r hr'))

/-- If the replay fetch for a processed request resolves, its entry is gone
after the loop. -/
theorem replayLoop_deleted (net : Request → Option Response)
    (r : Request) (hsome : (net r).isSome = true) (l : List Request) :
    ∀ c : Cache, r ∈ l → cacheLookup (replayLoop net c l) r.url.href = none := by
  induction l with
  | nil => intro c hc; cases hc
  | cons r' rs ih =>
    intro c hmem
    unfold replayLoop
    rcases List.mem_cons.mp hmem with h | h
    · subst h
      cases hnet : net r with
      | some resp =>
        exact replayLoop_none_preserved net rs _ _ (cacheLookup_delete_self c r)
      | none => rw [hnet] at hsome; cases hsome
    · cases hnet : net r' with
      | some resp => exact ih _ h
      | none => exact ih _ h

/-- If the replay fetch for a processed request rejects and the processed
list has pairwise-distinct keys, its entry is untouched after the loop. -/
theorem replayLoop_retained (net : Request → Option Response)
    (r : Request) (hnone : net r = none) (l : List Request) :
    ∀ c : Cache, (l.map (fun r' => r'.url.href)).Nodup → r ∈ l →
      cacheLookup (replayLoop net c l) r.url.href = cacheLookup c r.url.href := by
  induction l with
  | nil => intro c _ hc; cases hc
  | cons r' rs ih =>
    intro c hnd hmem
    have hnd' : r'.url.href ∉ rs.map (fun x => x.url.href) ∧
        (rs.map (fun x => x.url.href)).Nodup := by
      rw [List.map_cons, List.nodup_cons] at hnd
      exact hnd
    unfold replayLoop
    rcases List.mem_cons.mp hmem with h | h
    · subst h
      rw [hnone]
      refine replayLoop_untouched net rs c r.url.href ?_
      intro r'' hr'' heq
      exact hnd'.1 (heq ▸ List.mem_map_of_mem (fun x => x.url.href) hr'')
    · have hne : r.url.href ≠ r'.url.href := by
        intro heq
        exact hnd'.1 (heq ▸ List.mem_map_of_mem (fun x => x.url.href) h)
      cases hnet : net r' with
      | some resp =>
        rw [ih _ hnd'.2 h, cacheLookup_delete_ne c r' r.url.href (fun e => hne e.symm)]
      | none => exact ih _ hnd'.2 h

/-- The pending list inherits pairwise-distinct keys from the cache. -/
theorem pendingOf_nodup (c : Cache) (hwf : cacheWf c) :
    ((pendingOf c).map (fun r => r.url.href)).Nodup := by
  unfold cacheWf cacheHrefs at hwf
  exact hwf.sublist (((c.map Prod.fst).filter_sublist).map (fun r => r.url.href))

/-! ### Claims -/

/-- C1: the claim says a creation POST that fails to reach the network is
captured as a queued replay item, and the retry signal then issues exactly
one replay and empties the queue.  On the code this fails at the capture
step: the fetch listener returns early for every non-GET request, so the
failed POST to `/recipes/create` leaves the store untouched (nothing is
queued), and the subsequent `background-recipe-sync` signal — with the
network back up — finds an empty pending list and issues zero replays, not
one. -/
theorem claim_C1_capture_missing :
    handleFetch demoOrigin [] netDown createPostReq =
      { outcome := .passthrough, store := [], netCalls := 0 } ∧
    handleSync "background-recipe-sync"
        (handleFetch demoOrigin [] netDown createPostReq).store netUp =
      ([(DYNAMIC_CACHE, [])], 0) :=
  ⟨rfl, rfl⟩

/-- C2: install is all-or-nothing.  If any precache asset fetch fails (the
fetch rejects or the response is not ok), `cache.addAll` rejects atomically:
afterwards the store holds exactly the entries it held before (no entry
from this install), `skipWaiting` was never reached (no version switch),
and the install failed, leaving the previous version serving. -/
theorem claim_C2_install_atomicity (selfOrigin : String) (st : CacheStorage)
    (net : Request → Option Response)
    (h : ∃ u ∈ STATIC_ASSETS selfOrigin, fetchFails net u = true) :
    (onInstall selfOrigin st net).skipWaiting = false ∧
    (onInstall selfOrigin st net).succeeded = false ∧
    storeEntries (onInstall selfOrigin st net).store = storeEntries st := by
  have hnone := addAll_eq_none net (STATIC_ASSETS selfOrigin) h
    (storeGetCache (cachesOpen st STATIC_CACHE) STATIC_CACHE)
  simp only [onInstall, hnone]
  exact ⟨trivial, trivial, storeEntries_cachesOpen st STATIC_CACHE⟩

/-- Witness for C2 at a concrete input: empty store, fully failing network. -/
theorem claim_C2_witness :
    (onInstall demoOrigin [] netDown).skipWaiting = false ∧
    (onInstall demoOrigin [] netDown).succeeded = false ∧
    storeEntries (onInstall demoOrigin [] netDown).store =
      storeEntries ([] : CacheStorage) :=
  claim_C2_install_atomicity demoOrigin [] netDown
    ⟨⟨demoOrigin, "/"⟩, by simp [STATIC_ASSETS], rfl⟩

/-- C3: the claim's offline-fallback clause fails on the code.  For a
same-origin GET page request (Accept includes `text/html`) with no stored
copy and an unreachable network, the code runs
`return caches.match('/offline.html') || new Response('<h1>Offline</h1>…')`;
the promise returned by `caches.match` is always truthy, so the inline
offline notice is dead code, and since `/offline.html` is never precached
the promise resolves to `undefined` and `respondWith` yields a network
error: the failure propagates instead of the built-in offline notice. -/
theorem claim_C3_offline_notice_missing :
    (handleFetch demoOrigin [] netDown pageReq).outcome = .networkError :=
  rfl

/-- C4: network-first for API/status paths.  The network is attempted
(exactly one worker fetch in every case); on an ok response a copy is
stored in the runtime partition keyed by the request and the live response
is returned; on transport failure the stored copy is returned when one
exists; the failure surfaces to the caller only when no stored copy
exists. -/
theorem claim_C4_network_first (selfOrigin : String) (st : CacheStorage)
    (net : Request → Option Response) (req : Request)
    (hm : req.method = "GET") (ho : req.url.origin = selfOrigin)
    (hapi : isApiPath req.url.pathname = true) :
    (∀ resp, net req = some resp → resp.ok = true →
      handleFetch selfOrigin st net req =
        { outcome := .response resp, store := storePut st DYNAMIC_CACHE req resp,
          netCalls := 1 }) ∧
    (∀ r, net req = none → cachesMatch st req.url.href = some r →
      handleFetch selfOrigin st net req =
        { outcome := .response r, store := st, netCalls := 1 }) ∧
    (net req = none → cachesMatch st req.url.href = none →
      handleFetch selfOrigin st net req =
        { outcome := .networkError, store := st, netCalls := 1 }) := by
  have hguard : (req.method != "GET" || !(jsIncludes req.url.origin selfOrigin)) = false := by
    rw [hm, ho]
    simp [jsIncludes_refl]
  refine ⟨?_, ?_, ?_⟩
  · intro resp hnet hok
    simp [handleFetch, hguard, hapi, hnet, hok]
  · intro r hnet hmatch
    simp [handleFetch, hguard, hapi, hnet, hmatch]
  · intro hnet hmatch
    simp [handleFetch, hguard, hapi, hnet, hmatch]

/-- Witness for C4 at the spec's own scenario: a stored response for
`/api/status` plus a network failure returns the stored response. -/
theorem claim_C4_witness :
    handleFetch demoOrigin stWithStatus netDown statusReq =
      { outcome := .response cachedResp, store := stWithStatus, netCalls := 1 } :=
  (claim_C4_network_first demoOrigin stWithStatus netDown statusReq rfl rfl rfl).2.1
    cachedResp rfl rfl

/-- C5: the claim says every request targeting a different origin is passed
through with no store access.  The code's guard is the substring test
`url.origin.includes(self.location.origin)`, so a GET request to the
foreign origin `https://app.example.evil.test` — which contains the agent's
origin `https://app.example` as a substring — is intercepted, handled
network-first, and its response is written into the runtime partition:
interception and a store write where the claim requires untouched
pass-through. -/
theorem claim_C5_foreign_origin_intercepted :
    handleFetch demoOrigin [] netUp evilReq =
      { outcome := .response okResp,
        store := [(DYNAMIC_CACHE, [(evilReq, okResp)])], netCalls := 1 } :=
  rfl

/-- C6: after activation, every surviving partition is named with the
current version (the static or the dynamic partition name); all others have
been deleted, and the agent has claimed all open clients. -/
theorem claim_C6_stale_cleanup (st : CacheStorage) :
    ((onActivate st).store.all
      (fun p => p.1 == STATIC_CACHE || p.1 == DYNAMIC_CACHE)) = true ∧
    (onActivate st).clientsClaimed = true := by
  refine ⟨?_, rfl⟩
  simp only [onActivate, List.all_eq_true]
  intro p hp
  exact (List.mem_filter.mp hp).2

/-- C7: under either strategy, a network response with a non-success status
that reaches the caller is returned live but never written to any
partition (the store is unchanged).  The hypothesis `hreach` states that
the network response is the one served: the path is network-first, or
cache-first with a cache miss. -/
theorem claim_C7_error_status_never_stored (selfOrigin : String)
    (st : CacheStorage) (net : Request → Option Response) (req : Request)
    (resp : Response)
    (hm : req.method = "GET") (ho : req.url.origin = selfOrigin)
    (hnet : net req = some resp) (hok : resp.ok = false)
    (hreach : isApiPath req.url.pathname = true ∨ cachesMatch st req.url.href = none) :
    handleFetch selfOrigin st net req =
      { outcome := .response resp, store := st, netCalls := 1 } := by
  have hguard : (req.method != "GET" || !(jsIncludes req.url.origin selfOrigin)) = false := by
    rw [hm, ho]
    simp [jsIncludes_refl]
  by_cases hapi : isApiPath req.url.pathname = true
  · simp [handleFetch, hguard, hapi, hnet, hok]
  · have hmatch : cachesMatch st req.url.href = none := hreach.resolve_left hapi
    simp [handleFetch, hguard, hapi, hnet, hok, hmatch]

/-- Witness for C7: a 404 from `/api/bad` on an empty store is returned and
nothing is stored. -/
theorem claim_C7_witness :
    handleFetch demoOrigin [] (fun _ => some resp404) badReq =
      { outcome := .response resp404, store := [], netCalls := 1 } :=
  claim_C7_error_status_never_stored demoOrigin [] (fun _ => some resp404) badReq
    resp404 rfl rfl rfl rfl (Or.inl rfl)

/-- C8: the claim says the "view" interaction (or a plain click) opens a
window at the URL carried in the notification's data blob — `/recipes/42`
in the spec's scenario.  On the code, the push for
`{title: Ready, body: ..., data: {url: /recipes/42}}` does display exactly
one notification titled "Ready", but the push handler hardcodes the
notification's `data` to `{dateOfArrival, primaryKey}` and drops the
payload's data blob, so the click handler's `event.notification.data.url`
is undefined: "view" opens `/` instead of `/recipes/42`, and a plain click
(empty action) closes the notification without any navigation. -/
theorem claim_C8_payload_url_dropped :
    handlePush 0 (some (.parsed readyPayload)) = .shown readyNotif ∧
    displayedCount (handlePush 0 (some (.parsed readyPayload))) = 1 ∧
    readyNotif.title = "Ready" ∧
    handleNotificationClick readyNotif "view" =
      { closed := true, openedUrl := some "/" } ∧
    (handleNotificationClick readyNotif "view").openedUrl ≠ some "/recipes/42" ∧
    handleNotificationClick readyNotif "" = { closed := true, openedUrl := none } :=
  ⟨rfl, rfl, rfl, rfl, by decide, rfl⟩

/-- C9 counterexample: a push event whose payload is present but is not
valid JSON displays zero notifications, but `event.data.json()` throws and
the error propagates out of the handler — refuting the claim's "throws no
error" for every malformed payload. -/
theorem claim_C9_counterexample :
    displayedCount (handlePush 0 (some (.malformed "not-json"))) = 0 ∧
    threwError (handlePush 0 (some (.malformed "not-json"))) = true :=
  ⟨rfl, rfl⟩

/-- C9 as amended: a push event with missing payload data displays zero
notifications and throws no error (it is silently skipped); a push event
whose payload is present but malformed (unparseable JSON) also displays
zero notifications, but the parse error propagates out of the handler. -/
theorem claim_C9_amended (now : Nat) (raw : String) :
    handlePush now none = .noAction ∧
    displayedCount (handlePush now none) = 0 ∧
    threwError (handlePush now none) = false ∧
    displayedCount (handlePush now (some (.malformed raw))) = 0 ∧
    threwError (handlePush now (some (.malformed raw))) = true :=
  ⟨rfl, rfl, rfl, rfl, rfl⟩

/-- C10: in replay processing, a queued item is deleted whenever its
re-issued fetch resolves with any HTTP response at all (the status code is
never inspected), and is retained — its stored entry unchanged — exactly
when the fetch rejects at the transport level.  The first conjunct ties the
loop to `syncPendingRecipes` on a store whose runtime partition is `c`. -/
theorem claim_C10_delete_on_any_response (c : Cache)
    (net : Request → Option Response) (r : Request)
    (hwf : cacheWf c) (hr : r ∈ pendingOf c) :
    storeGetCache (syncPendingRecipes [(DYNAMIC_CACHE, c)] net).1 DYNAMIC_CACHE =
      replayLoop net c (pendingOf c) ∧
    ((net r).isSome = true →
      cacheLookup (replayLoop net c (pendingOf c)) r.url.href = none) ∧
    (net r = none →
      cacheLookup (replayLoop net c (pendingOf c)) r.url.href =
        cacheLookup c r.url.href) := by
  refine ⟨?_, ?_, ?_⟩
  · simp [syncPendingRecipes, cachesOpen, storeGetCache, storeSetCache]
  · intro hsome
    exact replayLoop_deleted net r hsome (pendingOf c) c hr
  · intro hnone
    exact replayLoop_retained net r hnone (pendingOf c) c (pendingOf_nodup c hwf) hr

/-- Witness for C10: a queued POST whose replay resolves with HTTP 500 is
still deleted from the runtime cache. -/
theorem claim_C10_witness :
    cacheLookup
      (replayLoop (fun _ => some resp500) [(queuedPost, queuedResp)]
        (pendingOf [(queuedPost, queuedResp)]))
      queuedPost.url.href = none :=
  (claim_C10_delete_on_any_response [(queuedPost, queuedResp)]
    (fun _ => some resp500) queuedPost (by unfold cacheWf; decide) (by decide)).2.1 rfl

end RecipeSW
